import Mathlib

/-!
Verification of the UI-automation Resolution & Verification Engine.

This file gives a shallow embedding, in Lean, of the core algorithms of the
repository (outcome validation, element ranking, step deduplication, the
flow-optimization fragment store and matcher, and the orchestrator state
machine), and proves or refutes the behavioural properties stated about them.

Conventions used throughout:
* Python strings are Lean `String`s; Python `None`-able values are `Option`s.
* Python floats are modelled as exact rationals (`ℚ`); none of the proved
  properties depends on rounding of IEEE arithmetic.
* Python dictionaries used as records are modelled as structures holding the
  fields the embedded code reads.
-/

namespace UIAuto

/-! ## Python string primitives -/

/-- Python `needle in hay` on character lists: `needle` occurs as a contiguous
infix of `hay`.  An empty needle always matches, as in Python. -/
def isInfixB (needle : List Char) : List Char → Bool
  | [] => needle.isEmpty
  | c :: t => needle.isPrefixOf (c :: t) || isInfixB needle t

/-- Python `needle in hay` for strings. -/
def pyIn (needle hay : String) : Bool :=
  isInfixB needle.data hay.data

/-- Python `s.rstrip("/")`: drop all trailing `'/'` characters. -/
def rstripSlash (s : String) : String :=
  String.mk ((s.data.reverse.dropWhile (fun c => c = '/')).reverse)

/-- Python `s.upper()` (character-wise; the embedded strings are ASCII). -/
def pyUpper (s : String) : String := String.mk (s.data.map Char.toUpper)

/-- Python `s.lower()` (character-wise; the embedded strings are ASCII). -/
def pyLower (s : String) : String := String.mk (s.data.map Char.toLower)

/-- Python `s.strip()`: drop leading and trailing whitespace. -/
def pyStrip (s : String) : String :=
  String.mk (((s.data.dropWhile Char.isWhitespace).reverse.dropWhile
    Char.isWhitespace).reverse)

/-- Python `s[:n]` (by code point). -/
def pyTake (s : String) (n : Nat) : String := String.mk (s.data.take n)

/-- Python `len(s)` (number of code points). -/
def pyLen (s : String) : Nat := s.data.length

/-- Python `s.startswith(pre)`. -/
def pyStartsWith (s pre : String) : Bool := pre.data.isPrefixOf s.data

/-! ## `app/core/outcome_validator.py` -/

/-- `PageState` from `outcome_validator.py`: url, title, and the two content
fingerprints (DOM-structure hash and visible-text hash), each optional. -/
structure PageState where
  url : String
  title : String
  dom_hash : Option String
  visible_text_hash : Option String
deriving DecidableEq

/-- `PageState.__eq__`: compares `url`, `title` and `dom_hash` (the
`visible_text_hash` field is not consulted). -/
def pageStateEq (a b : PageState) : Bool :=
  a.url == b.url && a.title == b.title && a.dom_hash == b.dom_hash

/-- `OutcomeValidator.validate_transition`.  The `expected_change` argument of
the source is never read and is omitted.  `strict_mode` is the constructor
flag (default `True` in the source). -/
def validate_transition (strict_mode : Bool) (before after : PageState) : Bool :=
  let url_changed := before.url != after.url
  let title_changed := before.title != after.title
  let dom_changed := before.dom_hash != after.dom_hash
  let text_changed := before.visible_text_hash != after.visible_text_hash
  if strict_mode then
    url_changed || title_changed || dom_changed || text_changed
  else
    url_changed || title_changed || text_changed

/-- `OutcomeValidator.validate_navigation`: the URL must differ. -/
def validate_navigation (before after : PageState) : Bool :=
  before.url != after.url

/-! ## Planned steps as dictionaries

The planner and the flow-optimization layer pass steps around as dictionaries
`{"action": ..., "target": ..., "value": ...}`; `dict.get` returns `None` for
a missing key, so each field is an `Option String`. -/

structure PyStep where
  action : Option String
  target : Option String
  value : Option String
deriving DecidableEq

/-- Python `(s.get("action") or "").upper()`. -/
def upperAction (s : PyStep) : String := pyUpper (s.action.getD "")

/-- The natural number denoted by a run of decimal digits. -/
def digitsToNat (ds : List Char) : Nat :=
  ds.foldl (fun n c => 10 * n + (c.toNat - '0'.toNat)) 0

/-- Leftmost match of the regex `(\d+(?:\.\d+)?)` used by `_parse_wait_sec`:
the first maximal digit run, with an optional fractional part introduced by a
dot.  Returns the integer and fractional digit runs. -/
def firstNumber : List Char → Option (List Char × List Char)
  | [] => none
  | c :: t =>
    if c.isDigit then
      let ds := (c :: t).takeWhile Char.isDigit
      let rest := (c :: t).dropWhile Char.isDigit
      match rest with
      | '.' :: r =>
        let fs := r.takeWhile Char.isDigit
        if fs.isEmpty then some (ds, []) else some (ds, fs)
      | _ => some (ds, [])
    else firstNumber t

/-- Numeric value of the matched digit runs, as an exact rational (the source
parses the same digits with `float`; no property proved here depends on IEEE
rounding). -/
def numValue (ip fp : List Char) : ℚ :=
  (digitsToNat ip : ℚ) + (digitsToNat fp : ℚ) / ((10 : ℚ) ^ fp.length)

/-- One `raw` pass of `_parse_wait_sec`: falsy values (`None`, `""`) are
skipped, otherwise the first number found by the regex is returned (`None`
when the string holds no digits). -/
def parseRaw (raw : Option String) : Option ℚ :=
  match raw with
  | none => none
  | some s => if s = "" then none else (firstNumber s.data).map (fun p => numValue p.1 p.2)

/-- `_parse_wait_sec` from `step_dedup.py`: try `value`, then `target`,
else 0. -/
def parseWaitSec (st : PyStep) : ℚ :=
  ((parseRaw st.value).orElse (fun _ => parseRaw st.target)).getD 0

/-- Model of Python `str(total_sec)` for the merged WAIT duration.  The exact
decimal rendering of the float is irrelevant to every property proved here —
code model and spec model render through this one function — so a fixed exact
rendering of the rational is used. -/
def floatStr (q : ℚ) : String :=
  if q.den = 1 then toString q.num ++ ".0" else toString q.num ++ "/" ++ toString q.den

/-- The merged step `{"action": "WAIT", "target": str(t), "value": str(t)}`. -/
def waitStep (total : ℚ) : PyStep :=
  { action := some "WAIT", target := some (floatStr total), value := some (floatStr total) }

/-- Does `(step.get("action") or "").upper()` equal `"WAIT"`? -/
def isWait (s : PyStep) : Bool := upperAction s = "WAIT"

/-- The CLICK-collapse test of `deduplicate_steps`: the current step is a
CLICK, the previous emitted step (`out[-1]`, when `out` is non-empty) is a
CLICK, and the two whitespace-trimmed targets coincide. -/
def clickCollapse (s : PyStep) : Option PyStep → Bool
  | some prev =>
    upperAction s == "CLICK" && upperAction prev == "CLICK" &&
      pyStrip (prev.target.getD "") == pyStrip (s.target.getD "")
  | none => false

/-- Main loop of `deduplicate_steps` (`step_dedup.py`); `outRev` is the
emitted list `out` in reverse, so `outRev.head?` is Python's `out[-1]`.
Every iteration of the source's `while` loop consumes at least one input
step, so the loop is run here on a fuel of `steps.length` (see
`deduplicate_steps`); the fuel-exhaustion branch is never reached from the
top-level entry point. -/
def dedupGoF : Nat → List PyStep → List PyStep → List PyStep
  | _, [], outRev => outRev.reverse
  | 0, steps, outRev => outRev.reverse ++ steps
  | Nat.succ fuel, s :: rest, outRev =>
    if isWait s then
      let rest2 := rest.dropWhile isWait
      let total := parseWaitSec s + ((rest.takeWhile isWait).map parseWaitSec).sum
      if 0 < total then dedupGoF fuel rest2 (waitStep total :: outRev)
      else dedupGoF fuel rest2 outRev
    else
      if clickCollapse s outRev.head? then dedupGoF fuel rest outRev
      else dedupGoF fuel rest (s :: outRev)

/-- `deduplicate_steps(steps)` from `step_dedup.py`. -/
def deduplicate_steps (steps : List PyStep) : List PyStep :=
  dedupGoF steps.length steps []

/-- The deduplication exactly as the claim words it: each maximal run of
consecutive WAITs merges into one WAIT carrying the summed duration (emitted
only when the sum is positive), consecutive CLICK steps *of the input* with
equal trimmed targets collapse to the first one, and every other step passes
through unchanged, in order.  (Same fuel discipline as `dedupGoF`.) -/
def specDedupClaimF : Nat → List PyStep → List PyStep
  | _, [] => []
  | 0, steps => steps
  | Nat.succ fuel, s :: rest =>
    if isWait s then
      let rest2 := rest.dropWhile isWait
      let total := parseWaitSec s + ((rest.takeWhile isWait).map parseWaitSec).sum
      if 0 < total then waitStep total :: specDedupClaimF fuel rest2
      else specDedupClaimF fuel rest2
    else if upperAction s = "CLICK" then
      s :: specDedupClaimF fuel (rest.dropWhile (fun t => clickCollapse t (some s)))
    else s :: specDedupClaimF fuel rest

/-- Top-level claim-as-stated spec for `deduplicate_steps`. -/
def specDedupClaim (steps : List PyStep) : List PyStep :=
  specDedupClaimF steps.length steps

/-- The amended deduplication spec: as `specDedupClaimF`, except that a CLICK
is dropped by comparison with the most recently *emitted* step
(`prevEmitted`), so CLICKs separated only by dropped zero-length WAIT runs
also collapse. -/
def specAmendGoF : Nat → Option PyStep → List PyStep → List PyStep
  | _, _, [] => []
  | 0, _, steps => steps
  | Nat.succ fuel, prevEmitted, s :: rest =>
    if isWait s then
      let rest2 := rest.dropWhile isWait
      let total := parseWaitSec s + ((rest.takeWhile isWait).map parseWaitSec).sum
      if 0 < total then waitStep total :: specAmendGoF fuel (some (waitStep total)) rest2
      else specAmendGoF fuel prevEmitted rest2
    else
      if clickCollapse s prevEmitted then specAmendGoF fuel prevEmitted rest
      else s :: specAmendGoF fuel (some s) rest

/-- Top-level amended spec for `deduplicate_steps`. -/
def specDedupAmended (steps : List PyStep) : List PyStep :=
  specAmendGoF steps.length none steps

/-! ## `app/flow_optimization/fragment_store.py` and `fragment_matcher.py`

A stored fragment row `(id, site, start_url, end_url, steps, success_count)`.
The source stores `steps` JSON-encoded and decodes it in the matcher; the
encoding is injective on these step records (fixed keys, fixed order), so the
model keeps the decoded list and compares it directly. -/

structure FragRow where
  id : Nat
  site : String
  start_url : String
  end_url : String
  steps : List PyStep
  success_count : Nat
deriving DecidableEq

/-- `FragmentMatcher._steps_match`: equal lengths, and pairwise the actions
are equal exactly (case-sensitively) while the targets are compared after
strip+lower.  The `value` field is never read. -/
def stepsMatch (a b : List PyStep) : Bool :=
  a.length == b.length &&
  (a.zip b).all (fun p =>
    p.1.action == p.2.action &&
      pyLower (pyStrip (p.1.target.getD "")) == pyLower (pyStrip (p.2.target.getD "")))

/-- The result dictionary `{"end_url": ..., "skip_count": N}` of
`FragmentMatcher.match`. -/
structure MatchResult where
  end_url : String
  skip_count : Nat
deriving DecidableEq

/-- The row loop of `FragmentMatcher.match`: skip rows with no steps, skip
rows whose start URL (trailing slashes stripped on both sides) is not a
prefix of the current URL, and return the first remaining row whose stored
steps match the next `len(steps)` upcoming steps. -/
def fragMatchGo (current_url : String) (upcoming : List PyStep) :
    List FragRow → Option MatchResult
  | [] => none
  | r :: rest =>
    if r.steps.isEmpty then fragMatchGo current_url upcoming rest
    else if !pyStartsWith (rstripSlash current_url) (rstripSlash r.start_url) then
      fragMatchGo current_url upcoming rest
    else if stepsMatch (upcoming.take r.steps.length) r.steps then
      some ⟨r.end_url, r.steps.length⟩
    else fragMatchGo current_url upcoming rest

/-- `FragmentMatcher.match` (rows as returned by `fetch_all`). -/
def fragMatch (current_url : String) (upcoming : List PyStep)
    (rows : List FragRow) : Option MatchResult :=
  if upcoming.isEmpty then none
  else fragMatchGo current_url upcoming rows

/-- The matching condition exactly as the claim words it (no requirement that
the stored step list be non-empty): the current URL, after trailing-slash
trimming, starts with the fragment's trimmed start URL, the upcoming list has
at least `K = r.steps.length` steps, and those first `K` steps agree with the
stored ones on exact action and on trimmed lowercased target; `value` fields
play no role. -/
def claimFragCondStated (current_url : String) (upcoming : List PyStep)
    (r : FragRow) : Bool :=
  pyStartsWith (rstripSlash current_url) (rstripSlash r.start_url) &&
  decide (r.steps.length ≤ upcoming.length) &&
  ((upcoming.take r.steps.length).zip r.steps).all (fun p =>
    p.1.action == p.2.action &&
      pyLower (pyStrip (p.1.target.getD "")) == pyLower (pyStrip (p.2.target.getD "")))

/-- The amended matching condition: as `claimFragCondStated`, plus the
requirement that the fragment's stored step list is non-empty. -/
def claimFragCond (current_url : String) (upcoming : List PyStep)
    (r : FragRow) : Bool :=
  !r.steps.isEmpty && claimFragCondStated current_url upcoming r

/-- `FlowFragment` (`fragment_model.py`), the record handed to the store. -/
structure FlowFragment where
  site : String
  start_url : String
  end_url : String
  steps : List PyStep
  success_count : Nat

/-- The fragment store: the `fragments` table in row (insertion) order plus
the AUTOINCREMENT counter.  SQLite allocates ids from 1, so a fresh store
carries `next_id = 1`. -/
structure FragmentStore where
  rows : List FragRow
  next_id : Nat

/-- The WHERE clause of `find_existing`: site, start_url, steps and end_url
all equal (`success_count` is not part of the key). -/
def keyMatches (f : FlowFragment) (r : FragRow) : Bool :=
  r.site == f.site && r.start_url == f.start_url &&
    r.steps == f.steps && r.end_url == f.end_url

/-- `FragmentStore.find_existing`: id of the first row matching the key,
else `None`. -/
def find_existing (s : FragmentStore) (f : FlowFragment) : Option Nat :=
  (s.rows.find? (keyMatches f)).map (fun r => r.id)

/-- The row update of the `UPDATE ... WHERE id = ?` statement. -/
def bumpRow (fid : Nat) (r : FragRow) : FragRow :=
  if r.id == fid then { r with success_count := r.success_count + 1 } else r

/-- `FragmentStore.increment_success_count`: bump every row carrying the
given id (ids are unique in SQLite; the proofs below do not rely on that). -/
def increment_success_count (s : FragmentStore) (fid : Nat) : FragmentStore :=
  { s with rows := s.rows.map (bumpRow fid) }

/-- `FragmentStore.save`: INSERT a new row, allocating the next id. -/
def save (s : FragmentStore) (f : FlowFragment) : FragmentStore :=
  { rows := s.rows ++
      [⟨s.next_id, f.site, f.start_url, f.end_url, f.steps, f.success_count⟩],
    next_id := s.next_id + 1 }

/-- `FragmentStore.save_or_update`: increment the existing row's
success_count, else insert; returns `True` on a fresh insert.  The source's
`if existing:` tests Python truthiness of the returned id; AUTOINCREMENT ids
start at 1, so the test coincides with `isSome`. -/
def save_or_update (s : FragmentStore) (f : FlowFragment) : FragmentStore × Bool :=
  match find_existing s f with
  | some fid => (increment_success_count s fid, false)
  | none => (save s f, true)

/-- Number of rows whose (site, start_url, steps, end_url) key equals `f`'s. -/
def countKey (s : FragmentStore) (f : FlowFragment) : Nat :=
  s.rows.countP (keyMatches f)

/-- Total success_count over the rows keyed like `f`. -/
def sumSuccessKey (s : FragmentStore) (f : FlowFragment) : Nat :=
  ((s.rows.filter (keyMatches f)).map (fun r => r.success_count)).sum

/-- The store invariant: at most one row per (site, start_url, steps,
end_url) tuple. -/
def KeyUnique (s : FragmentStore) : Prop :=
  ∀ f : FlowFragment, countKey s f ≤ 1

/-- A fresh store, as created by `_create_table` (AUTOINCREMENT starts
at 1). -/
def emptyStore : FragmentStore := ⟨[], 1⟩

/-- A concrete fragment: a two-step navigation chain on lg.com. -/
def lgFrag : FlowFragment :=
  ⟨"lg.com", "https://www.lg.com/in", "https://www.lg.com/in/air-conditioners",
    [⟨some "CLICK", some "home appliances", none⟩,
     ⟨some "CLICK", some "all air conditioners", none⟩], 1⟩

/-! ## `app/orchestrator_v3/orchestrator_v3.py` — the execution state machine

The orchestrator is a graph initialize → plan → execute → validate →
{recover | execute | cleanup}, recover → {execute | cleanup}, cleanup → END.
The browser, executor, planner and recovery agent are external; each
execute-node invocation is abstracted by an oracle value (`ExecOutcome`)
giving either a flow-optimization hit (skip k steps, success result) or the
`ActionResult` produced by dispatching the step (an executor exception is
the same as a failed result).  Bookkeeping fields no claim reads
(`flow_start_url`, `step_end_urls`, the reuse counters) are omitted.

Two framework subtleties are modelled as the source text reads, and neither
affects any claim verdict: (a) nodes returning the whole state re-send the
additive `results` channel, which can duplicate entries under the graph
library — duplication never changes the emptiness or the all-success value
of `results`, the only two facts the claims consult; (b) the write to
`state["error"]` inside the conditional-edge function `_should_recover`, and
the `state.pop("last_optimization_skip")`, may be discarded by the graph
library; the model keeps both effects (the reading most favourable to the
code). -/

/-- `ActionResult` restricted to the fields the orchestrator claims read. -/
structure ActionResult where
  success : Bool
  error : Option String
deriving DecidableEq

/-- Oracle value for one `_execute_node` invocation. -/
inductive ExecOutcome where
  | skipOpt (skip : Nat)
  | act (r : ActionResult)
deriving DecidableEq

/-- The claim-relevant fields of `AutomationState`. -/
structure OrchState where
  steps : List PyStep
  current_step_index : Nat
  results : List ActionResult
  error : Option String
  recovery_attempts : Nat
  max_recovery_attempts : Nat
  browser_ok : Bool
  last_optimization_skip : Option Nat
deriving DecidableEq

/-- `_execute_node`.  With the cursor past the end the node is a no-op; with
no browser a failure result is appended; otherwise the oracle outcome is
either an optimizer hit (success result, `last_optimization_skip` set) or
the dispatched action's result. -/
def executeNode (st : OrchState) (outcome : ExecOutcome) : OrchState :=
  if st.steps.length ≤ st.current_step_index then st
  else if !st.browser_ok then
    { st with results := st.results ++ [⟨false, some "Browser not initialized"⟩] }
  else
    match outcome with
    | .skipOpt k =>
      { st with
          results := st.results ++ [⟨true, none⟩]
          last_optimization_skip := some k }
    | .act r => { st with results := st.results ++ [r] }

/-- `_validate_node`: on a success the cursor advances by the pending
optimization skip (else one), the recovery counter resets and the skip is
consumed; on a failure nothing moves; with no result at all the error is
set. -/
def validateNode (st : OrchState) : OrchState :=
  match st.results.getLast? with
  | none => { st with error := some "No result" }
  | some last =>
    if last.success then
      { st with
          current_step_index := st.current_step_index +
            (match st.last_optimization_skip with | some k => k | none => 1)
          recovery_attempts := 0
          last_optimization_skip := none }
    else st

/-- Routes out of the validate node. -/
inductive Route3 where
  | recover | continueExec | complete
deriving DecidableEq

/-- `_should_recover` (conditional edge out of validate).  In the exhausted
branch the source assigns `state["error"] = "Max recovery exceeded"`; the
model keeps that write.  For `max_recovery_attempts ≥ 1` the branch is
unreachable (see claim C7): a failed step reaches this function with
`recovery_attempts < max` (attempts reset on success and `_retry_or_fail`
re-enters execute only while `attempts < max`), so the recover branch is
taken instead. -/
def shouldRecover (st : OrchState) : Route3 × OrchState :=
  if st.steps.length ≤ st.current_step_index then (.complete, st)
  else if (match st.results.getLast? with
      | some r => r.success
      | none => false) then
    (.continueExec, st)
  else if st.recovery_attempts < st.max_recovery_attempts then (.recover, st)
  else (.complete, { st with error := some "Max recovery exceeded" })

/-- `_recover_node`: bumps the counter; the advisory side effects (alternate
target text, sleep) change no claim-relevant field. -/
def recoverNode (st : OrchState) : OrchState :=
  { st with recovery_attempts := st.recovery_attempts + 1 }

/-- `_retry_or_fail` (conditional edge out of recover): retry while
`recovery_attempts < max_recovery_attempts`. -/
def retryOrFail (st : OrchState) : Bool :=
  st.recovery_attempts < st.max_recovery_attempts

/-- Nodes of the compiled graph loop. -/
inductive Node3 where
  | execN | validateN | recoverN | cleanupN
deriving DecidableEq

/-- The compiled graph loop.  `tick` counts execute invocations (indexing the
oracle); `fuel` bounds node transitions; `none` means the run did not
complete within the fuel.  The cleanup node (fragment saving, browser close)
changes no claim-relevant field. -/
def runLoop (env : Nat → ExecOutcome) :
    Nat → Node3 → Nat → OrchState → Option OrchState
  | 0, _, _, _ => none
  | Nat.succ fuel, .execN, tick, st =>
    runLoop env fuel .validateN (tick + 1) (executeNode st (env tick))
  | Nat.succ fuel, .validateN, tick, st =>
    match shouldRecover (validateNode st) with
    | (.complete, st3) => runLoop env fuel .cleanupN tick st3
    | (.continueExec, st3) => runLoop env fuel .execN tick st3
    | (.recover, st3) => runLoop env fuel .recoverN tick st3
  | Nat.succ fuel, .recoverN, tick, st =>
    if retryOrFail (recoverNode st) then
      runLoop env fuel .execN tick (recoverNode st)
    else runLoop env fuel .cleanupN tick (recoverNode st)
  | Nat.succ _, .cleanupN, _, st => some st

/-- Outcome of `_initialize_node` (browser start succeeds or throws). -/
inductive InitOutcome where
  | ok | failed (msg : String)

/-- Outcome of `_plan_node` (the external planner returns steps or throws). -/
inductive PlanOutcome where
  | planned (steps : List PyStep) | planFailed (msg : String)

/-- The initial `AutomationState` built by `run()`. -/
def initialState (maxRec : Nat) : OrchState :=
  { steps := []
    current_step_index := 0
    results := []
    error := none
    recovery_attempts := 0
    max_recovery_attempts := maxRec
    browser_ok := false
    last_optimization_skip := none }

/-- `run()` up to the final state: initialize (on failure `_after_init`
skips to cleanup), plan (plan → execute is an unconditional edge, even after
a plan error), then the loop. -/
def runMachine (env : Nat → ExecOutcome) (initO : InitOutcome)
    (planO : PlanOutcome) (maxRec fuel : Nat) : Option OrchState :=
  match initO with
  | .failed msg => some { initialState maxRec with error := some msg }
  | .ok =>
    let st1 := { initialState maxRec with browser_ok := true }
    let st2 := match planO with
      | .planned steps => { st1 with steps := steps }
      | .planFailed msg => { st1 with error := some msg }
    runLoop env fuel .execN 0 st2

/-- The final report dictionary of `run()`. -/
structure RunReport where
  success : Bool
  steps_executed : Nat
  total_steps : Nat
  results : List ActionResult
  error : Option String
deriving DecidableEq

/-- The report built at the end of `run()`:
`all_ok = results and all(r.success for r in results) and executed >= total`,
`success = not error and (all_ok if total > 0 else True)`.  Python's `and`
yields the falsy `[]` itself when `results` is empty; the model renders the
dict value's truthiness as a `Bool`. -/
def runReport (st : OrchState) : RunReport :=
  let executed := st.current_step_index
  let total := st.steps.length
  let all_ok := !st.results.isEmpty && st.results.all (fun r => r.success) &&
    decide (total ≤ executed)
  let success := st.error.isNone && (if 0 < total then all_ok else true)
  ⟨success, executed, total, st.results, st.error⟩

/-- The run-trace invariant carrying claim C2: the cursor only ever advances
after a recorded result, so a positive cursor implies a non-empty result
list. -/
def ResultsInv (st : OrchState) : Prop :=
  0 < st.current_step_index → st.results ≠ []

/-- Oracle for a run whose every dispatched action succeeds. -/
def envAllOk : Nat → ExecOutcome := fun _ => .act ⟨true, none⟩

/-- Oracle for a run whose every dispatched action fails to resolve. -/
def envAllFail : Nat → ExecOutcome :=
  fun _ => .act ⟨false, some "Could not resolve element"⟩

/-- A concrete one-step plan. -/
def cNavStep : PyStep := ⟨some "NAVIGATE", some "https://www.lg.com/in", none⟩

/-- A concrete CLICK step whose resolution will be forced to fail. -/
def cClickStep : PyStep := ⟨some "CLICK", some "nonexistent widget", none⟩

/-- Final state of the all-success one-step run (see `C2_success_iff_witness`). -/
def cOkState : OrchState :=
  { steps := [cNavStep]
    current_step_index := 1
    results := [⟨true, none⟩]
    error := none
    recovery_attempts := 0
    max_recovery_attempts := 2
    browser_ok := true
    last_optimization_skip := none }

/-- Final state of the exhausted-recovery run with
`max_recovery_attempts = 1` (see `C7_exhausted_recovery_trace`). -/
def cFailState : OrchState :=
  { steps := [cClickStep]
    current_step_index := 0
    results := [⟨false, some "Could not resolve element"⟩]
    error := none
    recovery_attempts := 1
    max_recovery_attempts := 1
    browser_ok := true
    last_optimization_skip := none }

/-! ## `app/core/dom_model.py` and `app/core/element_ranker.py`

`DOMElement` keeps the fields the ranker reads; of the attribute bag only the
three keys the ranker consults (`placeholder`, `aria_label`, `id`) are
modelled. -/

/-- `BoundingBox` (floats as exact rationals). -/
structure BoundingBox where
  x : ℚ
  y : ℚ
  width : ℚ
  height : ℚ
deriving DecidableEq

/-- `DOMElement` restricted to the ranker-read fields. -/
structure DOMElement where
  tag : String
  text : String
  role : Option String
  visible : Bool
  bounding_box : Option BoundingBox
  parent_text : Option String
  container : Option String
  placeholder : Option String
  aria_label : Option String
  elem_id : Option String
deriving DecidableEq

/-- Length of the common run at the heads of two character lists. -/
def commonRun : List Char → List Char → Nat
  | x :: xs, y :: ys => if x = y then commonRun xs ys + 1 else 0
  | _, _ => 0

/-- `SequenceMatcher.find_longest_match` over whole lists: the longest common
contiguous block, preferring the lowest a-position and then the lowest
b-position, returned as (i, j, size).  `text_similarity` passes no junk
predicate; the autojunk heuristic (which only fires for b-strings of ≥200
characters) is omitted — no property proved here depends on the similarity
value beyond its sign. -/
def bestMatch (a b : List Char) : Nat × Nat × Nat :=
  ((List.range a.length).flatMap (fun i =>
    (List.range b.length).map (fun j => (i, j, commonRun (a.drop i) (b.drop j))))).foldl
    (fun best c => if best.2.2 < c.2.2 then c else best) (0, 0, 0)

/-- Total matched characters of `SequenceMatcher.get_matching_blocks`:
recursively split around the longest match and sum the block sizes.  The fuel
`a.length + b.length + 1` is sufficient — each recursion strictly shrinks the
combined range. -/
def matchTotal : Nat → List Char → List Char → Nat
  | 0, _, _ => 0
  | Nat.succ fuel, a, b =>
    match bestMatch a b with
    | (i, j, k) =>
      if k = 0 then 0
      else matchTotal fuel (a.take i) (b.take j) + k +
        matchTotal fuel (a.drop (i + k)) (b.drop (j + k))

/-- `difflib._calculate_ratio`. -/
def ratioOfMatches (m len : Nat) : ℚ :=
  if len ≠ 0 then 2 * (m : ℚ) / (len : ℚ) else 1

/-- `text_similarity` from `element_ranker.py`: 0 when either string is
falsy, else the `SequenceMatcher` ratio of the lowercased strings. -/
def text_similarity (a b : String) : ℚ :=
  if a = "" ∨ b = "" then 0
  else
    ratioOfMatches
      (matchTotal (a.data.length + b.data.length + 1) (pyLower a).data (pyLower b).data)
      (a.data.length + b.data.length)

/-- Characters matched by the token regex `[a-zA-Z0-9.]+`. -/
def isTokChar (c : Char) : Bool :=
  ('a' ≤ c && c ≤ 'z') || ('A' ≤ c && c ≤ 'Z') || ('0' ≤ c && c ≤ '9') || c = '.'

/-- `re.findall(r"[a-zA-Z0-9.]+", text)`: the maximal token-character runs,
in order (fuel = input length, consumed at least one character per step). -/
def tokenRunsF : Nat → List Char → List (List Char)
  | 0, _ => []
  | _, [] => []
  | Nat.succ fuel, c :: t =>
    if isTokChar c then
      (c :: t.takeWhile isTokChar) :: tokenRunsF fuel (t.dropWhile isTokChar)
    else tokenRunsF fuel t

/-- All token runs of a character list. -/
def tokenRuns (l : List Char) : List (List Char) := tokenRunsF l.length l

/-- The keep-filter of `_significant_tokens` (min_len = 2): length ≥ 2, or
all digits, or all digits once dots are removed. -/
def keepToken (t : List Char) : Bool :=
  decide (2 ≤ t.length) || (!t.isEmpty && t.all Char.isDigit) ||
    (let r := t.filter (fun c => c ≠ '.')
     !r.isEmpty && r.all Char.isDigit)

/-- `_significant_tokens(text)` (on the lowercased text). -/
def significantTokens (text : String) : List (List Char) :=
  if text = "" then [] else (tokenRuns (pyLower text).data).filter keepToken

/-- `target_text.lower().strip()`. -/
def targetLower (target_text : String) : String := pyStrip (pyLower target_text)

/-- `(element.text or "").lower().strip()`. -/
def elementTextOf (e : DOMElement) : String := pyStrip (pyLower e.text)

/-- `(element.parent_text or "").lower().strip()`. -/
def parentTextOf (e : DOMElement) : String := pyStrip (pyLower (e.parent_text.getD ""))

/-- `(element.attributes.get("placeholder") or "").lower().strip()`. -/
def placeholderOf (e : DOMElement) : String := pyStrip (pyLower (e.placeholder.getD ""))

/-- `(element.attributes.get("aria_label") or "").lower().strip()`. -/
def ariaLowerOf (e : DOMElement) : String := pyStrip (pyLower (e.aria_label.getD ""))

/-- The combined text: element + parent + placeholder + aria joined with
spaces, stripped and truncated to 600 characters; if empty, the element text
is used. -/
def combinedText (e : DOMElement) : String :=
  let c := pyTake (pyStrip (elementTextOf e ++ " " ++ parentTextOf e ++ " " ++
    placeholderOf e ++ " " ++ ariaLowerOf e)) 600
  if c = "" then elementTextOf e else c

/-- Scoring weights of `ElementRanker` (source values). -/
def WEIGHT_EXACT_MATCH : ℚ := 0.30

/-- `WEIGHT_SEMANTIC_SIMILARITY = 0.15`. -/
def WEIGHT_SEMANTIC_SIMILARITY : ℚ := 0.15

/-- `WEIGHT_SUBSTRING_MATCH = 0.25`. -/
def WEIGHT_SUBSTRING_MATCH : ℚ := 0.25

/-- `WEIGHT_KEYWORD_OVERLAP = 0.15`. -/
def WEIGHT_KEYWORD_OVERLAP : ℚ := 0.15

/-- `WEIGHT_ROLE_MATCH = 0.08`. -/
def WEIGHT_ROLE_MATCH : ℚ := 0.08

/-- `WEIGHT_ARIA_LABEL = 0.12`. -/
def WEIGHT_ARIA_LABEL : ℚ := 0.12

/-- `WEIGHT_VISIBILITY = 0.05`. -/
def WEIGHT_VISIBILITY : ℚ := 0.05

/-- `WEIGHT_POSITION_BIAS = 0.05`. -/
def WEIGHT_POSITION_BIAS : ℚ := 0.05

/-- `WEIGHT_CONTAINER_CONTEXT = 0.10`. -/
def WEIGHT_CONTAINER_CONTEXT : ℚ := 0.10

/-- `MIN_SUBSTRING_LEN = 12`. -/
def MIN_SUBSTRING_LEN : Nat := 12

/-- `LONG_TARGET_LEN = 60`. -/
def LONG_TARGET_LEN : Nat := 60

/-- `LONG_TARGET_THRESHOLD = 0.35`. -/
def LONG_TARGET_THRESHOLD : ℚ := 0.35

/-- Step 1 of `score_element`: exact match. -/
def exactComp (e : DOMElement) (t : String) : ℚ :=
  if elementTextOf e = targetLower t then WEIGHT_EXACT_MATCH else 0

/-- Step 2a: substring dominance (+0.5 when the target occurs in the
combined text; elif in the element text). -/
def substrDomComp (e : DOMElement) (t : String) : ℚ :=
  if targetLower t ≠ "" ∧ combinedText e ≠ "" ∧
      pyIn (targetLower t) (combinedText e) then 0.5
  else if targetLower t ≠ "" ∧ elementTextOf e ≠ "" ∧
      pyIn (targetLower t) (elementTextOf e) then 0.5
  else 0

/-- Step 2b: target inside placeholder or aria label. -/
def placeholderComp (e : DOMElement) (t : String) : ℚ :=
  if targetLower t ≠ "" ∧
      (pyIn (targetLower t) (placeholderOf e) ∨ pyIn (targetLower t) (ariaLowerOf e))
  then WEIGHT_SUBSTRING_MATCH else 0

/-- Step 2c: substring / contains / truncated-overlap bonus. -/
def substrComp (e : DOMElement) (t : String) : ℚ :=
  if MIN_SUBSTRING_LEN ≤ pyLen (targetLower t) ∨
      MIN_SUBSTRING_LEN ≤ pyLen (combinedText e) then
    if pyIn (targetLower t) (combinedText e) then WEIGHT_SUBSTRING_MATCH
    else if pyIn (combinedText e) (targetLower t) then WEIGHT_SUBSTRING_MATCH
    else
      let n := min (min (pyLen (targetLower t)) (pyLen (combinedText e))) 80
      if MIN_SUBSTRING_LEN ≤ n ∧
          (pyIn (pyTake (targetLower t) n) (combinedText e) ∨
            pyIn (pyTake (combinedText e) n) (targetLower t))
      then WEIGHT_SUBSTRING_MATCH * 0.8 else 0
  else 0

/-- Step 3: keyword overlap ratio (set membership of significant tokens). -/
def keywordComp (e : DOMElement) (t : String) : ℚ :=
  if significantTokens t ≠ [] then
    ((((significantTokens t).filter
        (fun tok => (significantTokens (combinedText e)).contains tok)).length : ℚ) /
      ((significantTokens t).length : ℚ)) * WEIGHT_KEYWORD_OVERLAP
  else 0

/-- Step 4: sequence similarity of combined text and target. -/
def simComp (e : DOMElement) (t : String) : ℚ :=
  text_similarity (combinedText e) t * WEIGHT_SEMANTIC_SIMILARITY

/-- Step 6: role match. -/
def roleComp (e : DOMElement) : ℚ :=
  if e.role = some "button" ∨ e.role = some "link" then WEIGHT_ROLE_MATCH else 0

/-- Step 7: aria-label similarity (raw attribute value, truthiness-guarded). -/
def ariaComp (e : DOMElement) (t : String) : ℚ :=
  if e.aria_label.getD "" ≠ "" then
    text_similarity (e.aria_label.getD "") t * WEIGHT_ARIA_LABEL
  else 0

/-- Step 8: visibility bonus. -/
def visComp (e : DOMElement) : ℚ := if e.visible then WEIGHT_VISIBILITY else 0

/-- Step 9: position bias (above the fold, y < 800). -/
def posComp (e : DOMElement) : ℚ :=
  match e.bounding_box with
  | some bb => if bb.y < 800 then WEIGHT_POSITION_BIAS else 0
  | none => 0

/-- Step 10: container/region context bonus (truthiness-guarded). -/
def containerComp (e : DOMElement) (region_context : Option String) : ℚ :=
  match region_context, e.container with
  | some rc, some cont =>
    if rc ≠ "" ∧ cont ≠ "" ∧ pyIn (pyLower rc) (pyLower cont) then
      WEIGHT_CONTAINER_CONTEXT
    else 0
  | _, _ => 0

/-- Step 11: historical-success bonus. -/
def histComp (historical_success : Bool) : ℚ :=
  if historical_success then 0.05 else 0

/-- `ElementRanker.score_element` before the final cap: the running sum of
the eleven scoring steps, in source order. -/
def score_raw (e : DOMElement) (t : String) (region_context : Option String)
    (historical_success : Bool) : ℚ :=
  exactComp e t + substrDomComp e t + placeholderComp e t + substrComp e t +
    keywordComp e t + simComp e t + roleComp e + ariaComp e t + visComp e +
    posComp e + containerComp e region_context + histComp historical_success

/-- `ElementRanker.score_element`: the sum capped at 1.0. -/
def score_element (e : DOMElement) (t : String) (region_context : Option String)
    (historical_success : Bool) : ℚ :=
  min (score_raw e t region_context historical_success) 1

/-- `ElementRanker._effective_threshold`. -/
def effectiveThreshold (threshold : ℚ) (target_text : String) : ℚ :=
  if LONG_TARGET_LEN < pyLen (pyStrip target_text) then LONG_TARGET_THRESHOLD
  else threshold

/-- History lookup key `f"{tag}_{text}_{id}"`. -/
def historyKey (e : DOMElement) : String :=
  e.tag ++ "_" ++ e.text ++ "_" ++ (e.elem_id.getD "")

/-- `history_lookup.get(key, False)` over the optional lookup. -/
def historyFlag (history_lookup : Option (String → Bool)) (e : DOMElement) : Bool :=
  match history_lookup with
  | some h => h (historyKey e)
  | none => false

/-- The scored list, in document order. -/
def scoredAll (elements : List DOMElement) (target_text : String)
    (region_context : Option String) (history_lookup : Option (String → Bool)) :
    List (ℚ × DOMElement) :=
  elements.map (fun e =>
    (score_element e target_text region_context (historyFlag history_lookup e), e))

/-- The stable descending sort order (`sort(key=score, reverse=True)`):
`x` may stay before `y` iff `y`'s score is ≤ `x`'s. -/
def scoreDescBool (x y : ℚ × DOMElement) : Bool := decide (y.1 ≤ x.1)

/-- `scored_all.sort(key=lambda x: x[0], reverse=True)` — a stable sort. -/
def sortedScores (elements : List DOMElement) (target_text : String)
    (region_context : Option String) (history_lookup : Option (String → Bool)) :
    List (ℚ × DOMElement) :=
  (scoredAll elements target_text region_context history_lookup).mergeSort scoreDescBool

/-- The single-best fallback shared by the long-target and few-candidates
branches: the top-scored candidate, if it clears the 0.40 fallback
threshold. -/
def fallbackPick (sorted : List (ℚ × DOMElement)) : List (ℚ × DOMElement) :=
  match sorted with
  | best :: _ => if (0.40 : ℚ) ≤ best.1 then [best] else []
  | [] => []

/-- `ElementRanker.rank_elements`: score, sort stably by descending score,
keep candidates at or above the effective threshold, then the long-target
fallback, then the few-candidates (≤5) fallback. -/
def rank_elements (threshold : ℚ) (elements : List DOMElement)
    (target_text : String) (region_context : Option String)
    (history_lookup : Option (String → Bool)) : List (ℚ × DOMElement) :=
  let sorted := sortedScores elements target_text region_context history_lookup
  let use_fallback := 50 < pyLen (pyStrip target_text)
  let accepted := sorted.filter
    (fun x => decide (effectiveThreshold threshold target_text ≤ x.1))
  let accepted := if accepted.isEmpty = true ∧ use_fallback then fallbackPick sorted
    else accepted
  let accepted := if accepted.isEmpty = true ∧ elements.length ≤ 5 then
      fallbackPick sorted
    else accepted
  accepted

/-- A concrete long product-title target (70 characters, already lowercase
and stripped). -/
def cTgt : String :=
  "lg 5 star (1.5) split ac, gold fin+, ai convertible 6-in-1, 2025 model"

/-- A candidate whose own text is exactly the target. -/
def cElemB : DOMElement :=
  { tag := "a"
    text := cTgt
    role := some "link"
    visible := true
    bounding_box := none
    parent_text := none
    container := none
    placeholder := none
    aria_label := none
    elem_id := none }

/-- A candidate whose ancestor (parent) text contains the full target
verbatim among other characters. -/
def cElemA : DOMElement :=
  { tag := "a"
    text := cTgt
    role := some "link"
    visible := true
    bounding_box := none
    parent_text := some ("buy now " ++ cTgt ++ " in stock")
    container := none
    placeholder := none
    aria_label := none
    elem_id := none }

end UIAuto

namespace UIAuto

/-! ## Theorems for claims C1 and C8 -/

/-- C1 (counterexample).  The claim says `validate_transition` must return
`false` whenever neither the URL nor either content fingerprint changed.  At
this concrete pair of captures only the title differs — URL, DOM hash and
visible-text hash are all unchanged — yet `validate_transition` (strict mode,
the default) returns `true`. -/
theorem C1_counterexample :
    (PageState.mk "https://ex.com/a" "Home" (some "h1") (some "v1")).url =
      (PageState.mk "https://ex.com/a" "Cart" (some "h1") (some "v1")).url ∧
    (PageState.mk "https://ex.com/a" "Home" (some "h1") (some "v1")).dom_hash =
      (PageState.mk "https://ex.com/a" "Cart" (some "h1") (some "v1")).dom_hash ∧
    (PageState.mk "https://ex.com/a" "Home" (some "h1") (some "v1")).visible_text_hash =
      (PageState.mk "https://ex.com/a" "Cart" (some "h1") (some "v1")).visible_text_hash ∧
    validate_transition true
      (PageState.mk "https://ex.com/a" "Home" (some "h1") (some "v1"))
      (PageState.mk "https://ex.com/a" "Cart" (some "h1") (some "v1")) = true := by
  decide

/-- C1 (amended).  `validate_transition` returns `true` exactly when the URL,
the title, the DOM-structure hash (strict mode only) or the visible-text hash
changed; in particular a title-only change also validates a transition. -/
theorem C1_transition_gate (strict : Bool) (b a : PageState) :
    validate_transition strict b a = true ↔
      (b.url ≠ a.url ∨ b.title ≠ a.title ∨
        (strict = true ∧ b.dom_hash ≠ a.dom_hash) ∨
        b.visible_text_hash ≠ a.visible_text_hash) := by
  cases strict <;> simp [validate_transition, bne_iff_ne] <;> tauto

/-- C8 (counterexample).  The claim says two `PageState`s are equal exactly
when url and content fingerprint match, independently of any other field.  At
this concrete pair, url and both fingerprints coincide and only the title
differs, yet `PageState.__eq__` returns `False`. -/
theorem C8_counterexample :
    (PageState.mk "u" "Home" (some "h") (some "v")).url =
      (PageState.mk "u" "Cart" (some "h") (some "v")).url ∧
    (PageState.mk "u" "Home" (some "h") (some "v")).dom_hash =
      (PageState.mk "u" "Cart" (some "h") (some "v")).dom_hash ∧
    (PageState.mk "u" "Home" (some "h") (some "v")).visible_text_hash =
      (PageState.mk "u" "Cart" (some "h") (some "v")).visible_text_hash ∧
    pageStateEq (PageState.mk "u" "Home" (some "h") (some "v"))
      (PageState.mk "u" "Cart" (some "h") (some "v")) = false := by
  decide

/-- C8 (amended).  `PageState.__eq__` holds exactly when url, title and
DOM-structure hash all match; the visible-text hash plays no role in
equality. -/
theorem C8_pageState_eq (a b : PageState) :
    pageStateEq a b = true ↔
      (a.url = b.url ∧ a.title = b.title ∧ a.dom_hash = b.dom_hash) := by
  simp [pageStateEq, and_assoc]

/-! ## Theorems for claim C9 -/

/-- The accumulator loop of `deduplicate_steps` agrees with the direct
recursion that tracks only the most recently emitted step, at every fuel. -/
theorem dedupGoF_eq_specAmendGoF (fuel : Nat) :
    ∀ steps outRev : List PyStep,
      dedupGoF fuel steps outRev = outRev.reverse ++ specAmendGoF fuel outRev.head? steps := by
  induction fuel with
  | zero =>
    intro steps outRev
    cases steps <;> simp [dedupGoF, specAmendGoF]
  | succ fuel ih =>
    intro steps outRev
    cases steps with
    | nil => simp [dedupGoF, specAmendGoF]
    | cons s rest =>
      simp only [dedupGoF, specAmendGoF]
      by_cases hw : isWait s = true
      · simp only [hw, if_true]
        by_cases hpos :
            0 < parseWaitSec s + ((rest.takeWhile isWait).map parseWaitSec).sum
        · rw [if_pos hpos, if_pos hpos, ih]
          simp
        · rw [if_neg hpos, if_neg hpos, ih]
      · simp only [hw, Bool.false_eq_true, if_false]
        by_cases hc : clickCollapse s outRev.head? = true
        · rw [if_pos hc, if_pos hc, ih]
        · rw [if_neg hc, if_neg hc, ih]
          simp

/-- C9 (counterexample).  The claim says only *consecutive* CLICK steps with
identical trimmed targets collapse, with all other steps kept in order.  On
`[CLICK "add to cart", WAIT "0", CLICK "add to cart"]` the claim's reading
keeps both CLICKs (they are separated by a WAIT), merely dropping the
zero-length WAIT; `deduplicate_steps` instead collapses them to one, because
the second CLICK is compared against the last *emitted* step. -/
theorem C9_counterexample :
    deduplicate_steps
        [⟨some "CLICK", some "add to cart", none⟩,
         ⟨some "WAIT", none, some "0"⟩,
         ⟨some "CLICK", some "add to cart", none⟩] =
      [⟨some "CLICK", some "add to cart", none⟩] ∧
    specDedupClaim
        [⟨some "CLICK", some "add to cart", none⟩,
         ⟨some "WAIT", none, some "0"⟩,
         ⟨some "CLICK", some "add to cart", none⟩] =
      [⟨some "CLICK", some "add to cart", none⟩,
       ⟨some "CLICK", some "add to cart", none⟩] := by
  have hwait : parseWaitSec ⟨some "WAIT", none, some "0"⟩ = 0 := by
    have h0 : firstNumber "0".data = some (['0'], []) := by decide
    have h1 : digitsToNat ['0'] = 0 := by decide
    have h2 : digitsToNat [] = 0 := by decide
    simp [parseWaitSec, parseRaw, h0, numValue, h1, h2]
  have hw1 : isWait ⟨some "CLICK", some "add to cart", none⟩ = false := by decide
  have hw2 : isWait ⟨some "WAIT", none, some "0"⟩ = true := by decide
  have hc0 : clickCollapse ⟨some "CLICK", some "add to cart", none⟩
      (none : Option PyStep) = false := by decide
  have hc1 : clickCollapse ⟨some "CLICK", some "add to cart", none⟩
      (some ⟨some "CLICK", some "add to cart", none⟩) = true := by decide
  have hact : upperAction ⟨some "CLICK", some "add to cart", none⟩ = "CLICK" := by decide
  constructor
  · show dedupGoF 3 _ [] = _
    rw [dedupGoF]
    rw [if_neg (by simp [hw1]), if_neg (by simp [hc0])]
    rw [dedupGoF]
    rw [if_pos (by simp [hw2])]
    simp only [List.takeWhile, List.dropWhile, hw1, hw2]
    rw [if_neg (by simp [hwait])]
    rw [dedupGoF]
    rw [if_neg (by simp [hw1]), if_pos (by simp [hc1])]
    rw [dedupGoF]
    simp
  · show specDedupClaimF 3 _ = _
    rw [specDedupClaimF]
    rw [if_neg (by simp [hw1]), if_pos (by simp [hact])]
    simp only [List.dropWhile, hw2]
    rw [show clickCollapse ⟨some "WAIT", none, some "0"⟩
        (some ⟨some "CLICK", some "add to cart", none⟩) = false from by decide]
    rw [specDedupClaimF]
    rw [if_pos (by simp [hw2])]
    simp only [List.takeWhile, List.dropWhile, hw1, hw2]
    rw [if_neg (by simp [hwait])]
    rw [specDedupClaimF]
    rw [if_neg (by simp [hw1]), if_pos (by simp [hact])]
    simp [specDedupClaimF]

/-- C9 (amended).  `deduplicate_steps` merges each maximal run of consecutive
WAITs into one WAIT carrying the summed duration, drops the merged WAIT when
the sum is zero, passes every non-CLICK step through unchanged in order, and
collapses a CLICK with the most recently *emitted* step when that step is a
CLICK with the same trimmed target — so CLICKs separated only by dropped
zero-length WAIT runs also collapse. -/
theorem C9_dedup_spec (steps : List PyStep) :
    deduplicate_steps steps = specDedupAmended steps := by
  rw [deduplicate_steps, specDedupAmended, dedupGoF_eq_specAmendGoF]
  rfl

/-! ## Theorems for claim C10 -/

/-- For a row with a non-empty step list, the matcher's step test over the
upcoming prefix is the claim's agreement condition. -/
theorem stepsMatch_take (up : List PyStep) (st : List PyStep) :
    stepsMatch (up.take st.length) st =
      (decide (st.length ≤ up.length) &&
        ((up.take st.length).zip st).all (fun p =>
          p.1.action == p.2.action &&
            pyLower (pyStrip (p.1.target.getD "")) ==
              pyLower (pyStrip (p.2.target.getD "")))) := by
  unfold stepsMatch
  congr 1
  rw [List.length_take]
  rcases le_or_lt st.length up.length with h | h
  · rw [min_eq_left h, decide_eq_true h]
    exact beq_self_eq_true st.length
  · rw [min_eq_right h.le, decide_eq_false (Nat.not_le.mpr h)]
    exact beq_eq_false_iff_ne.mpr (Nat.ne_of_lt h)

/-- The matcher's row loop returns exactly the first row satisfying the
amended condition. -/
theorem fragMatchGo_eq_find (url : String) (up : List PyStep)
    (rows : List FragRow) :
    fragMatchGo url up rows =
      (rows.find? (claimFragCond url up)).map
        (fun r => MatchResult.mk r.end_url r.steps.length) := by
  induction rows with
  | nil => rfl
  | cons r rest ih =>
    by_cases hempty : r.steps.isEmpty = true
    · have hcond : ¬ claimFragCond url up r = true := by
        simp [claimFragCond, hempty]
      have hstep : fragMatchGo url up (r :: rest) = fragMatchGo url up rest := by
        simp only [fragMatchGo]
        rw [if_pos hempty]
      rw [hstep, ih, List.find?_cons_of_neg _ hcond]
    · by_cases hpre : pyStartsWith (rstripSlash url) (rstripSlash r.start_url) = true
      · by_cases hm : stepsMatch (up.take r.steps.length) r.steps = true
        · have hcond : claimFragCond url up r = true := by
            rw [stepsMatch_take] at hm
            simp only [Bool.and_eq_true] at hm
            simp [claimFragCond, claimFragCondStated, hempty, hpre, hm.1, hm.2]
          have hstep : fragMatchGo url up (r :: rest) =
              some (MatchResult.mk r.end_url r.steps.length) := by
            simp only [fragMatchGo]
            rw [if_neg hempty, if_neg (by simp [hpre]), if_pos hm]
          rw [hstep, List.find?_cons_of_pos _ hcond]
          rfl
        · have hcond : ¬ claimFragCond url up r = true := by
            rw [stepsMatch_take] at hm
            simp only [claimFragCond, claimFragCondStated, Bool.and_eq_true] at hm ⊢
            intro hcon
            exact hm ⟨hcon.2.1.2, hcon.2.2⟩
          have hstep : fragMatchGo url up (r :: rest) = fragMatchGo url up rest := by
            simp only [fragMatchGo]
            rw [if_neg hempty, if_neg (by simp [hpre]), if_neg hm]
          rw [hstep, ih, List.find?_cons_of_neg _ hcond]
      · have hcond : ¬ claimFragCond url up r = true := by
          simp [claimFragCond, claimFragCondStated, hpre]
        have hstep : fragMatchGo url up (r :: rest) = fragMatchGo url up rest := by
          simp only [fragMatchGo]
          rw [if_neg hempty, if_pos (by simp [hpre])]
        rw [hstep, ih, List.find?_cons_of_neg _ hcond]

/-- With no upcoming steps, no row satisfies the amended condition. -/
theorem claimFragCond_nil (url : String) (r : FragRow) :
    claimFragCond url [] r = false := by
  cases h : r.steps with
  | nil => simp [claimFragCond, h]
  | cons a t => simp [claimFragCond, claimFragCondStated, h]

/-- C10 (counterexample).  The claim's condition, as stated, is satisfied by
a stored fragment with an *empty* step list (the current URL extends its
start URL, and the first 0 upcoming steps vacuously agree with its 0 stored
steps), yet `FragmentMatcher.match` skips such rows and returns `None`. -/
theorem C10_counterexample :
    claimFragCondStated "https://www.lg.com/in"
      [⟨some "CLICK", some "home appliances", none⟩]
      ⟨1, "lg.com", "https://www.lg.com/in", "https://www.lg.com/in/acs", [], 1⟩ = true ∧
    fragMatch "https://www.lg.com/in"
      [⟨some "CLICK", some "home appliances", none⟩]
      [⟨1, "lg.com", "https://www.lg.com/in", "https://www.lg.com/in/acs", [], 1⟩] =
      none := by
  constructor
  · decide
  · decide

/-- C10 (amended).  `FragmentMatcher.match` returns the end URL and step
count of the *first* stored fragment whose step list is non-empty, whose
start URL (after trailing-slash trimming on both sides) is a prefix of the
current URL, and whose stored steps agree with the first K upcoming steps on
exact action and trimmed lowercased target — and `None` exactly when no such
fragment exists.  The steps' `value` fields play no role in the condition. -/
theorem C10_fragment_match (url : String) (up : List PyStep)
    (rows : List FragRow) :
    fragMatch url up rows =
      (rows.find? (claimFragCond url up)).map
        (fun r => MatchResult.mk r.end_url r.steps.length) := by
  unfold fragMatch
  by_cases hup : up.isEmpty
  · rw [if_pos hup]
    have hnil : up = [] := by simpa [List.isEmpty_iff] using hup
    subst hnil
    rw [List.find?_eq_none.mpr (fun r _ => by simp [claimFragCond_nil])]
    rfl
  · rw [if_neg hup]
    exact fragMatchGo_eq_find url up rows

/-! ## Theorems for claim C6 -/

/-- Bumping a success count never changes a row's key. -/
theorem keyMatches_bumpRow (f : FlowFragment) (fid : Nat) (r : FragRow) :
    keyMatches f (bumpRow fid r) = keyMatches f r := by
  unfold bumpRow
  by_cases h : (r.id == fid) = true <;> simp [h, keyMatches]

/-- `increment_success_count` preserves every key count. -/
theorem countKey_increment (s : FragmentStore) (fid : Nat) (f : FlowFragment) :
    countKey (increment_success_count s fid) f = countKey s f := by
  show (s.rows.map (bumpRow fid)).countP (keyMatches f) = s.rows.countP (keyMatches f)
  induction s.rows with
  | nil => rfl
  | cons a t ih =>
    simp only [List.map_cons, List.countP_cons, keyMatches_bumpRow, ih]

/-- Filtering by key commutes with the increment map. -/
theorem filter_map_increment (l : List FragRow) (f : FlowFragment) (fid : Nat) :
    (l.map (bumpRow fid)).filter (keyMatches f) =
      (l.filter (keyMatches f)).map (bumpRow fid) := by
  induction l with
  | nil => rfl
  | cons a t ih =>
    by_cases h : keyMatches f a = true
    · simp [List.filter_cons, h, keyMatches_bumpRow, ih]
    · simp [List.filter_cons, h, keyMatches_bumpRow, ih]

/-- The first `save_or_update` leaves exactly one row with `f`'s key,
starting from any store with at-most-one-row-per-key. -/
theorem countKey_after_first (s : FragmentStore) (f : FlowFragment)
    (hku : KeyUnique s) :
    countKey (save_or_update s f).1 f = 1 := by
  unfold save_or_update
  cases hfe : find_existing s f with
  | some fid =>
    simp only [countKey_increment]
    unfold find_existing at hfe
    cases hfind : s.rows.find? (keyMatches f) with
    | none => rw [hfind] at hfe; simp at hfe
    | some r =>
      have hmem := List.mem_of_find?_eq_some hfind
      have hkey := List.find?_some hfind
      have hpos : 0 < countKey s f :=
        List.countP_pos_iff.mpr ⟨r, hmem, hkey⟩
      have := hku f
      omega
  | none =>
    unfold find_existing at hfe
    cases hfind : s.rows.find? (keyMatches f) with
    | some r => rw [hfind] at hfe; simp at hfe
    | none =>
      have hzero : countKey s f = 0 := by
        unfold countKey
        rw [List.countP_eq_zero]
        intro a ha
        exact List.find?_eq_none.mp hfind a ha
      simp only [save, countKey]
      rw [List.countP_append]
      unfold countKey at hzero
      rw [hzero]
      simp [keyMatches]

/-- `save_or_update` preserves the at-most-one-row-per-key invariant. -/
theorem C6_helper_keyUnique (s : FragmentStore) (f : FlowFragment)
    (hku : KeyUnique s) :
    KeyUnique (save_or_update s f).1 := by
  intro g
  unfold save_or_update
  cases hfe : find_existing s f with
  | some fid => simp only [countKey_increment]; exact hku g
  | none =>
    unfold find_existing at hfe
    cases hfind : s.rows.find? (keyMatches f) with
    | some r => rw [hfind] at hfe; simp at hfe
    | none =>
      simp only [save, countKey]
      rw [List.countP_append]
      by_cases hnew : keyMatches g
          ⟨s.next_id, f.site, f.start_url, f.end_url, f.steps, f.success_count⟩ = true
      · have heqs : f.site = g.site ∧ f.start_url = g.start_url ∧
            f.steps = g.steps ∧ f.end_url = g.end_url := by
          simpa [keyMatches, and_assoc] using hnew
        have hsame : ∀ r : FragRow, keyMatches g r = keyMatches f r := by
          intro r
          simp [keyMatches, ← heqs.1, ← heqs.2.1, ← heqs.2.2.1, ← heqs.2.2.2]
        have hzero : s.rows.countP (keyMatches g) = 0 := by
          rw [List.countP_eq_zero]
          intro a ha
          rw [hsame a]
          exact List.find?_eq_none.mp hfind a ha
        rw [hzero]
        simp [hnew]
      · have := hku g
        unfold countKey at this
        simp [hnew]
        omega

/-- C6.  Starting from any store satisfying "at most one row per (site,
start_url, steps, end_url) tuple": every `save_or_update` preserves the
invariant, and recording the same fragment twice leaves exactly one row with
that key, whose success_count the second recording incremented by one (the
key's success total grows by exactly 1, and no duplicate row appears). -/
theorem C6_idempotent_recording (s : FragmentStore) (f : FlowFragment)
    (hku : KeyUnique s) :
    KeyUnique (save_or_update s f).1 ∧
    countKey (save_or_update (save_or_update s f).1 f).1 f = 1 ∧
    sumSuccessKey (save_or_update (save_or_update s f).1 f).1 f =
      sumSuccessKey (save_or_update s f).1 f + 1 := by
  have hku1 : KeyUnique (save_or_update s f).1 := C6_helper_keyUnique s f hku
  have hone : countKey (save_or_update s f).1 f = 1 := countKey_after_first s f hku
  set s1 := (save_or_update s f).1 with hs1
  refine ⟨hku1, ?_, ?_⟩
  · -- second call finds the key, increments in place, and preserves the count
    unfold save_or_update
    cases hfe : find_existing s1 f with
    | none =>
      exfalso
      unfold find_existing at hfe
      cases hfind : s1.rows.find? (keyMatches f) with
      | some r => rw [hfind] at hfe; simp at hfe
      | none =>
        have hzero : countKey s1 f = 0 := by
          unfold countKey
          rw [List.countP_eq_zero]
          intro a ha
          exact List.find?_eq_none.mp hfind a ha
        omega
    | some fid =>
      show countKey (increment_success_count s1 fid) f = 1
      rw [countKey_increment]
      exact hone
  · unfold save_or_update
    cases hfe : find_existing s1 f with
    | none =>
      exfalso
      unfold find_existing at hfe
      cases hfind : s1.rows.find? (keyMatches f) with
      | some r => rw [hfind] at hfe; simp at hfe
      | none =>
        have hzero : countKey s1 f = 0 := by
          unfold countKey
          rw [List.countP_eq_zero]
          intro a ha
          exact List.find?_eq_none.mp hfind a ha
        omega
    | some fid =>
      unfold find_existing at hfe
      cases hfind : s1.rows.find? (keyMatches f) with
      | none => rw [hfind] at hfe; simp at hfe
      | some r =>
        rw [hfind] at hfe
        simp only [Option.map] at hfe
        have hid : r.id = fid := by
          cases hfe
          rfl
        have hmem := List.mem_of_find?_eq_some hfind
        have hkey := List.find?_some hfind
        have hflen : (s1.rows.filter (keyMatches f)).length = 1 := by
          rw [← List.countP_eq_length_filter]
          exact hone
        obtain ⟨a, ha⟩ := List.length_eq_one.mp hflen
        have hra : r = a := by
          have hmf : r ∈ s1.rows.filter (keyMatches f) :=
            List.mem_filter.mpr ⟨hmem, hkey⟩
          rw [ha] at hmf
          simpa using hmf
        subst hra
        show (((s1.rows.map (bumpRow fid)).filter (keyMatches f)).map
            (fun r => r.success_count)).sum =
          ((s1.rows.filter (keyMatches f)).map (fun r => r.success_count)).sum + 1
        rw [filter_map_increment, ha]
        simp [bumpRow, hid]

/-- C6 (witness).  The double-recording property instantiated on a fresh
store and a concrete two-step lg.com fragment. -/
theorem C6_idempotent_recording_witness :
    KeyUnique (save_or_update emptyStore lgFrag).1 ∧
    countKey (save_or_update (save_or_update emptyStore lgFrag).1 lgFrag).1 lgFrag = 1 ∧
    sumSuccessKey (save_or_update (save_or_update emptyStore lgFrag).1 lgFrag).1 lgFrag =
      sumSuccessKey (save_or_update emptyStore lgFrag).1 lgFrag + 1 :=
  C6_idempotent_recording emptyStore lgFrag (fun g => by simp [countKey, emptyStore])

/-! ## Theorems for claims C2 and C7 -/

/-- The execute node never moves the cursor. -/
theorem executeNode_idx (st : OrchState) (o : ExecOutcome) :
    (executeNode st o).current_step_index = st.current_step_index := by
  unfold executeNode
  by_cases h1 : st.steps.length ≤ st.current_step_index
  · rw [if_pos h1]
  · rw [if_neg h1]
    by_cases h2 : (!st.browser_ok) = true
    · rw [if_pos h2]
    · rw [if_neg h2]
      cases o <;> rfl

/-- The execute node never empties the result list. -/
theorem executeNode_results_ne (st : OrchState) (o : ExecOutcome)
    (h : st.results ≠ []) : (executeNode st o).results ≠ [] := by
  unfold executeNode
  by_cases h1 : st.steps.length ≤ st.current_step_index
  · rw [if_pos h1]; exact h
  · rw [if_neg h1]
    by_cases h2 : (!st.browser_ok) = true
    · rw [if_pos h2]; simp
    · rw [if_neg h2]; cases o <;> simp

/-- The execute node preserves the cursor/results invariant. -/
theorem executeNode_inv (st : OrchState) (o : ExecOutcome)
    (h : ResultsInv st) : ResultsInv (executeNode st o) := by
  intro hidx
  rw [executeNode_idx] at hidx
  exact executeNode_results_ne st o (h hidx)

/-- The validate node preserves the cursor/results invariant: it advances the
cursor only when a recorded result exists. -/
theorem validateNode_inv (st : OrchState) (h : ResultsInv st) :
    ResultsInv (validateNode st) := by
  unfold validateNode
  split
  · intro hidx
    exact h hidx
  · rename_i last heq
    have hne : st.results ≠ [] := by
      intro hnil
      rw [hnil] at heq
      simp at heq
    split
    · intro _
      exact hne
    · intro _
      exact hne

/-- The conditional edge out of validate touches only the error field. -/
theorem shouldRecover_snd_inv (st : OrchState) (h : ResultsInv st) :
    ResultsInv (shouldRecover st).2 := by
  unfold shouldRecover
  by_cases h1 : st.steps.length ≤ st.current_step_index
  · rw [if_pos h1]; exact h
  · rw [if_neg h1]
    by_cases h2 : (match st.results.getLast? with
        | some r => r.success
        | none => false) = true
    · rw [if_pos h2]; exact h
    · rw [if_neg h2]
      by_cases h3 : st.recovery_attempts < st.max_recovery_attempts
      · rw [if_pos h3]; exact h
      · rw [if_neg h3]; intro hidx; exact h hidx

/-- The recover node preserves the cursor/results invariant. -/
theorem recoverNode_inv (st : OrchState) (h : ResultsInv st) :
    ResultsInv (recoverNode st) := by
  intro hidx
  exact h hidx

/-- The loop preserves the cursor/results invariant up to the final state. -/
theorem runLoop_inv (env : Nat → ExecOutcome) :
    ∀ (fuel : Nat) (n : Node3) (tick : Nat) (st st' : OrchState),
      ResultsInv st → runLoop env fuel n tick st = some st' → ResultsInv st' := by
  intro fuel
  induction fuel with
  | zero =>
    intro n tick st st' _ hrun
    simp [runLoop] at hrun
  | succ fuel ih =>
    intro n tick st st' h hrun
    cases n with
    | execN =>
      simp only [runLoop] at hrun
      exact ih _ _ _ _ (executeNode_inv st (env tick) h) hrun
    | validateN =>
      simp only [runLoop] at hrun
      have hv := shouldRecover_snd_inv (validateNode st) (validateNode_inv st h)
      split at hrun
      all_goals rename_i st3 heq
      all_goals rw [heq] at hv
      all_goals exact ih _ _ _ _ hv hrun
    | recoverN =>
      simp only [runLoop] at hrun
      by_cases hr : retryOrFail (recoverNode st) = true
      · rw [if_pos hr] at hrun
        exact ih _ _ _ _ (recoverNode_inv st h) hrun
      · rw [if_neg hr] at hrun
        exact ih _ _ _ _ (recoverNode_inv st h) hrun
    | cleanupN =>
      simp only [runLoop] at hrun
      have heq := Option.some.inj hrun
      rw [← heq]
      exact h

/-- Every completed run satisfies the cursor/results invariant. -/
theorem runMachine_inv (env : Nat → ExecOutcome) (initO : InitOutcome)
    (planO : PlanOutcome) (maxRec fuel : Nat) (st : OrchState)
    (hrun : runMachine env initO planO maxRec fuel = some st) :
    ResultsInv st := by
  unfold runMachine at hrun
  cases initO with
  | failed msg =>
    have heq := Option.some.inj hrun
    rw [← heq]
    intro hidx
    simp [initialState] at hidx
  | ok =>
    cases planO with
    | planned steps =>
      refine runLoop_inv env fuel _ _ _ _ ?_ hrun
      intro hidx
      simp [initialState] at hidx
    | planFailed msg =>
      refine runLoop_inv env fuel _ _ _ _ ?_ hrun
      intro hidx
      simp [initialState] at hidx

/-- C2.  For every completed run, the reported overall success flag is true
exactly when the error field is unset and, whenever the planned step list is
non-empty, every recorded `ActionResult` succeeded and the cursor reached
the end of the step list.  (The report additionally requires a non-empty
result list, which the run invariant makes automatic once the cursor has
reached the end of a non-empty plan.) -/
theorem C2_success_iff (env : Nat → ExecOutcome) (initO : InitOutcome)
    (planO : PlanOutcome) (maxRec fuel : Nat) (st : OrchState)
    (hrun : runMachine env initO planO maxRec fuel = some st) :
    ((runReport st).success = true ↔
      (st.error = none ∧ (0 < st.steps.length →
        (∀ r ∈ st.results, r.success = true) ∧
        st.steps.length ≤ st.current_step_index))) := by
  have hinv : ResultsInv st := runMachine_inv env initO planO maxRec fuel st hrun
  show ((st.error.isNone &&
      (if 0 < st.steps.length then
        (!st.results.isEmpty && st.results.all (fun r => r.success) &&
          decide (st.steps.length ≤ st.current_step_index))
      else true)) = true) ↔ _
  by_cases ht : 0 < st.steps.length
  · rw [if_pos ht]
    simp only [Bool.and_eq_true, Option.isNone_iff_eq_none,
      Bool.not_eq_true', List.isEmpty_eq_false, List.all_eq_true,
      decide_eq_true_eq]
    constructor
    · rintro ⟨he, ⟨hne, hall⟩, hle⟩
      exact ⟨he, fun _ => ⟨hall, hle⟩⟩
    · rintro ⟨he, himp⟩
      obtain ⟨hall, hle⟩ := himp ht
      have hne : st.results ≠ [] := hinv (Nat.lt_of_lt_of_le ht hle)
      exact ⟨he, ⟨hne, hall⟩, hle⟩
  · rw [if_neg ht]
    simp only [Bool.and_true, Option.isNone_iff_eq_none]
    constructor
    · intro he
      exact ⟨he, fun h0 => absurd h0 ht⟩
    · intro hc
      exact hc.1

/-- C2 (witness).  A completed one-step all-success run with
`max_recovery_attempts = 2`. -/
theorem C2_success_iff_witness :
    ((runReport cOkState).success = true ↔
      (cOkState.error = none ∧ (0 < cOkState.steps.length →
        (∀ r ∈ cOkState.results, r.success = true) ∧
        cOkState.steps.length ≤ cOkState.current_step_index))) :=
  C2_success_iff envAllOk .ok (.planned [cNavStep]) 2 10 cOkState (by decide)

/-- C7 (code evaluated at the failing input).  With the recovery cap set to
1 and a one-step plan whose execution always fails, the machine terminates
through `_retry_or_fail` → cleanup after spending the one allowed recovery
attempt, with `steps_executed < total_steps` and overall success `False` —
but with the final `error` field still unset (`None`): the exhausted-recovery
branch of `_should_recover` that would assign "Max recovery exceeded" is
never reached for a positive cap, so the claimed final error is absent. -/
theorem C7_exhausted_recovery_trace :
    runMachine envAllFail .ok (.planned [cClickStep]) 1 10 = some cFailState ∧
    cFailState.error = none ∧
    (runReport cFailState).success = false ∧
    (runReport cFailState).steps_executed < (runReport cFailState).total_steps ∧
    cFailState.recovery_attempts = cFailState.max_recovery_attempts := by
  decide

/-! ## Theorems for claims C3, C4 and C5 -/

/-- The sequence-matcher similarity is nonnegative. -/
theorem text_similarity_nonneg (a b : String) : 0 ≤ text_similarity a b := by
  unfold text_similarity ratioOfMatches
  repeat' split
  · exact le_refl 0
  · exact div_nonneg (mul_nonneg (by norm_num) (Nat.cast_nonneg _))
      (Nat.cast_nonneg _)
  · norm_num

/-- Step values are nonnegative: exact match. -/
theorem exactComp_nonneg (e : DOMElement) (t : String) : 0 ≤ exactComp e t := by
  unfold exactComp WEIGHT_EXACT_MATCH
  split <;> norm_num

/-- Step values are nonnegative: substring dominance. -/
theorem substrDomComp_nonneg (e : DOMElement) (t : String) :
    0 ≤ substrDomComp e t := by
  unfold substrDomComp
  repeat' split
  all_goals norm_num

/-- Step values are nonnegative: placeholder/aria containment. -/
theorem placeholderComp_nonneg (e : DOMElement) (t : String) :
    0 ≤ placeholderComp e t := by
  unfold placeholderComp WEIGHT_SUBSTRING_MATCH
  split <;> norm_num

/-- An if-then-else of two nonnegative rationals is nonnegative. -/
theorem ite_nonneg_q {c : Prop} [Decidable c] {a b : ℚ} (ha : 0 ≤ a)
    (hb : 0 ≤ b) : 0 ≤ if c then a else b := by
  by_cases h : c
  · rw [if_pos h]; exact ha
  · rw [if_neg h]; exact hb

/-- Step values are nonnegative: substring/contains/overlap. -/
theorem substrComp_nonneg (e : DOMElement) (t : String) : 0 ≤ substrComp e t := by
  unfold substrComp WEIGHT_SUBSTRING_MATCH
  split
  · split
    · norm_num
    · split
      · norm_num
      · exact ite_nonneg_q (by norm_num) (by norm_num)
  · norm_num

/-- Step values are nonnegative: keyword overlap. -/
theorem keywordComp_nonneg (e : DOMElement) (t : String) : 0 ≤ keywordComp e t := by
  unfold keywordComp
  split
  · exact mul_nonneg (div_nonneg (Nat.cast_nonneg _) (Nat.cast_nonneg _))
      (by norm_num [WEIGHT_KEYWORD_OVERLAP])
  · norm_num

/-- Step values are nonnegative: sequence similarity. -/
theorem simComp_nonneg (e : DOMElement) (t : String) : 0 ≤ simComp e t := by
  unfold simComp
  exact mul_nonneg (text_similarity_nonneg (combinedText e) t)
    (by norm_num [WEIGHT_SEMANTIC_SIMILARITY])

/-- Step values are nonnegative: role match. -/
theorem roleComp_nonneg (e : DOMElement) : 0 ≤ roleComp e := by
  unfold roleComp WEIGHT_ROLE_MATCH
  split <;> norm_num

/-- Step values are nonnegative: aria-label similarity. -/
theorem ariaComp_nonneg (e : DOMElement) (t : String) : 0 ≤ ariaComp e t := by
  unfold ariaComp
  split
  · exact mul_nonneg (text_similarity_nonneg (e.aria_label.getD "") t)
      (by norm_num [WEIGHT_ARIA_LABEL])
  · norm_num

/-- Step values are nonnegative: visibility. -/
theorem visComp_nonneg (e : DOMElement) : 0 ≤ visComp e := by
  unfold visComp WEIGHT_VISIBILITY
  split <;> norm_num

/-- Step values are nonnegative: position bias. -/
theorem posComp_nonneg (e : DOMElement) : 0 ≤ posComp e := by
  unfold posComp WEIGHT_POSITION_BIAS
  repeat' split
  all_goals norm_num

/-- Step values are nonnegative: container context. -/
theorem containerComp_nonneg (e : DOMElement) (rc : Option String) :
    0 ≤ containerComp e rc := by
  unfold containerComp WEIGHT_CONTAINER_CONTEXT
  repeat' split
  all_goals norm_num

/-- Step values are nonnegative: historical success. -/
theorem histComp_nonneg (h : Bool) : 0 ≤ histComp h := by
  unfold histComp
  split <;> norm_num

/-- A candidate whose combined text contains the (non-trivial) lowercased
target receives the 2a substring-dominance bonus (0.5) and the 2c substring
bonus (0.25), so its capped score is at least 0.75. -/
theorem score_element_ge_of_substr (e : DOMElement) (t : String)
    (rc : Option String) (hist : Bool)
    (hsub : pyIn (targetLower t) (combinedText e) = true)
    (hlen : 12 ≤ pyLen (targetLower t)) :
    (0.75 : ℚ) ≤ score_element e t rc hist := by
  have htne : targetLower t ≠ "" := by
    intro h0
    rw [h0] at hlen
    simp [pyLen] at hlen
  have hcne : combinedText e ≠ "" := by
    intro h0
    rw [h0] at hsub
    have hempty : (targetLower t).data.isEmpty = true := by
      simpa [pyIn, isInfixB] using hsub
    rw [List.isEmpty_iff] at hempty
    rw [pyLen, hempty] at hlen
    simp at hlen
  have h2a : substrDomComp e t = 0.5 := by
    unfold substrDomComp
    rw [if_pos ⟨htne, hcne, hsub⟩]
  have h2c : substrComp e t = WEIGHT_SUBSTRING_MATCH := by
    unfold substrComp
    rw [if_pos (show MIN_SUBSTRING_LEN ≤ pyLen (targetLower t) ∨
        MIN_SUBSTRING_LEN ≤ pyLen (combinedText e) from Or.inl hlen),
      if_pos hsub]
  have hraw : (0.75 : ℚ) ≤ score_raw e t rc hist := by
    unfold score_raw
    rw [h2a, h2c]
    have n1 := exactComp_nonneg e t
    have n2 := placeholderComp_nonneg e t
    have n3 := keywordComp_nonneg e t
    have n4 := simComp_nonneg e t
    have n5 := roleComp_nonneg e
    have n6 := ariaComp_nonneg e t
    have n7 := visComp_nonneg e
    have n8 := posComp_nonneg e
    have n9 := containerComp_nonneg e rc
    have n10 := histComp_nonneg hist
    unfold WEIGHT_SUBSTRING_MATCH
    linarith
  unfold score_element
  exact le_min hraw (by norm_num)

/-- The stable descending order is transitive. -/
theorem scoreDesc_trans (a b c : ℚ × DOMElement)
    (hab : scoreDescBool a b = true) (hbc : scoreDescBool b c = true) :
    scoreDescBool a c = true := by
  simp only [scoreDescBool, decide_eq_true_eq] at *
  exact le_trans hbc hab

/-- The stable descending order is total. -/
theorem scoreDesc_total (a b : ℚ × DOMElement) :
    (scoreDescBool a b || scoreDescBool b a) = true := by
  simp only [scoreDescBool, Bool.or_eq_true, decide_eq_true_eq]
  exact le_total b.1 a.1

/-- When some candidate clears the effective threshold, `rank_elements` is
exactly the threshold-filtered sorted list (no fallback fires). -/
theorem rank_eq_filter (threshold : ℚ) (elements : List DOMElement) (t : String)
    (rc : Option String) (hist : Option (String → Bool))
    (hne : (sortedScores elements t rc hist).filter
      (fun x => decide (effectiveThreshold threshold t ≤ x.1)) ≠ []) :
    rank_elements threshold elements t rc hist =
      (sortedScores elements t rc hist).filter
        (fun x => decide (effectiveThreshold threshold t ≤ x.1)) := by
  have h1 : ((sortedScores elements t rc hist).filter
      (fun x => decide (effectiveThreshold threshold t ≤ x.1))).isEmpty = false := by
    rw [List.isEmpty_eq_false]
    exact hne
  simp only [rank_elements]
  rw [if_neg (by simp [h1]), if_neg (by simp [h1])]

/-- A candidate at or above the effective threshold appears in the filtered
sorted list. -/
theorem rank_mem_filter (threshold : ℚ) (elements : List DOMElement) (t : String)
    (rc : Option String) (hist : Option (String → Bool)) (e : DOMElement)
    (he : e ∈ elements)
    (hsc : effectiveThreshold threshold t ≤ score_element e t rc (historyFlag hist e)) :
    (score_element e t rc (historyFlag hist e), e) ∈
      (sortedScores elements t rc hist).filter
        (fun x => decide (effectiveThreshold threshold t ≤ x.1)) := by
  have h1 : (score_element e t rc (historyFlag hist e), e) ∈
      scoredAll elements t rc hist := by
    unfold scoredAll
    exact List.mem_map_of_mem _ he
  have h2 : (score_element e t rc (historyFlag hist e), e) ∈
      sortedScores elements t rc hist := by
    unfold sortedScores
    exact ((List.mergeSort_perm _ _).mem_iff).mpr h1
  exact List.mem_filter.mpr ⟨h2, decide_eq_true hsc⟩

/-- In the filtered sorted list, the head dominates every member's score. -/
theorem rank_head_ge (threshold : ℚ) (elements : List DOMElement) (t : String)
    (rc : Option String) (hist : Option (String → Bool)) (p : ℚ × DOMElement)
    (hp : p ∈ (sortedScores elements t rc hist).filter
      (fun x => decide (effectiveThreshold threshold t ≤ x.1)))
    (q : ℚ × DOMElement)
    (hq : ((sortedScores elements t rc hist).filter
      (fun x => decide (effectiveThreshold threshold t ≤ x.1))).head? = some q) :
    p.1 ≤ q.1 := by
  have hsorted : List.Pairwise (fun a b => scoreDescBool a b = true)
      (sortedScores elements t rc hist) :=
    List.sorted_mergeSort scoreDesc_trans scoreDesc_total _
  have hsf : List.Pairwise (fun a b => scoreDescBool a b = true)
      ((sortedScores elements t rc hist).filter
        (fun x => decide (effectiveThreshold threshold t ≤ x.1))) :=
    hsorted.sublist (List.filter_sublist _)
  cases hfl : (sortedScores elements t rc hist).filter
      (fun x => decide (effectiveThreshold threshold t ≤ x.1)) with
  | nil =>
    rw [hfl] at hq
    simp at hq
  | cons qq rest =>
    rw [hfl] at hq hp hsf
    have hqq : qq = q := by simpa using hq
    subst hqq
    rcases List.mem_cons.mp hp with hpq | hpr
    · rw [hpq]
    · have := (List.pairwise_cons.mp hsf).1 p hpr
      simpa [scoreDescBool] using this

/-- C3 (amended).  If a candidate's combined text (own + ancestor +
placeholder + aria, lowercased, truncated at 600 characters) contains the
lowercased target verbatim and the target has at least 12 characters, then
its score is at least 0.75, it is accepted by the ranker (default threshold
0.65), and the ranker's top entry also scores at least 0.75 — though the top
entry may be a different candidate that scored at least as high. -/
theorem C3_substring_dominance (elements : List DOMElement) (e : DOMElement)
    (t : String) (he : e ∈ elements)
    (hsub : pyIn (targetLower t) (combinedText e) = true)
    (hlen : 12 ≤ pyLen (targetLower t)) :
    (0.75 : ℚ) ≤ score_element e t none false ∧
    (∃ p ∈ rank_elements 0.65 elements t none none,
      p.2 = e ∧ (0.75 : ℚ) ≤ p.1) ∧
    ∀ q, (rank_elements 0.65 elements t none none).head? = some q →
      (0.75 : ℚ) ≤ q.1 := by
  have hsc : (0.75 : ℚ) ≤ score_element e t none (historyFlag none e) :=
    score_element_ge_of_substr e t none (historyFlag none e) hsub hlen
  have heff : effectiveThreshold 0.65 t ≤
      score_element e t none (historyFlag none e) := by
    unfold effectiveThreshold LONG_TARGET_THRESHOLD
    split <;> linarith
  have hmemf := rank_mem_filter 0.65 elements t none none e he heff
  have heq := rank_eq_filter 0.65 elements t none none (List.ne_nil_of_mem hmemf)
  refine ⟨hsc, ⟨(score_element e t none (historyFlag none e), e), ?_, rfl, hsc⟩, ?_⟩
  · rw [heq]
    exact hmemf
  · intro q hq
    rw [heq] at hq
    have := rank_head_ge 0.65 elements t none none _ hmemf q hq
    linarith

/-- C4.  For a target longer than 60 characters (stripped), a candidate
whose combined text contains the lowercased target verbatim is accepted by
`rank_elements` at *any* configured threshold: the long-target effective
threshold is 0.35 while the candidate scores at least 0.75. -/
theorem C4_long_target_fallback (threshold : ℚ) (elements : List DOMElement)
    (e : DOMElement) (t : String) (he : e ∈ elements)
    (hlong : 60 < pyLen (pyStrip t))
    (hlen : 12 ≤ pyLen (targetLower t))
    (hsub : pyIn (targetLower t) (combinedText e) = true) :
    rank_elements threshold elements t none none ≠ [] ∧
    ∃ p ∈ rank_elements threshold elements t none none,
      p.2 = e ∧ (0.75 : ℚ) ≤ p.1 := by
  have hsc : (0.75 : ℚ) ≤ score_element e t none (historyFlag none e) :=
    score_element_ge_of_substr e t none (historyFlag none e) hsub hlen
  have heff : effectiveThreshold threshold t ≤
      score_element e t none (historyFlag none e) := by
    unfold effectiveThreshold
    rw [if_pos (show LONG_TARGET_LEN < pyLen (pyStrip t) from hlong)]
    unfold LONG_TARGET_THRESHOLD
    linarith
  have hmemf := rank_mem_filter threshold elements t none none e he heff
  have heq := rank_eq_filter threshold elements t none none
    (List.ne_nil_of_mem hmemf)
  constructor
  · rw [heq]
    exact List.ne_nil_of_mem hmemf
  · refine ⟨(score_element e t none (historyFlag none e), e), ?_, rfl, hsc⟩
    rw [heq]
    exact hmemf

/-- C4 (witness).  The 70-character product title with the single
ancestor-containing candidate, at a configured threshold of 0.9. -/
theorem C4_long_target_fallback_witness :
    rank_elements 0.9 [cElemA] cTgt none none ≠ [] ∧
    ∃ p ∈ rank_elements 0.9 [cElemA] cTgt none none,
      p.2 = cElemA ∧ (0.75 : ℚ) ≤ p.1 :=
  C4_long_target_fallback 0.9 [cElemA] cElemA cTgt (List.mem_singleton.mpr rfl)
    (by decide) (by decide) (by decide)

/-- C3 (witness).  The same candidate set, at the default 0.65 threshold. -/
theorem C3_substring_dominance_witness :
    (0.75 : ℚ) ≤ score_element cElemA cTgt none false ∧
    (∃ p ∈ rank_elements 0.65 [cElemA] cTgt none none,
      p.2 = cElemA ∧ (0.75 : ℚ) ≤ p.1) ∧
    ∀ q, (rank_elements 0.65 [cElemA] cTgt none none).head? = some q →
      (0.75 : ℚ) ≤ q.1 :=
  C3_substring_dominance [cElemA] cElemA cTgt (List.mem_singleton.mpr rfl)
    (by decide) (by decide)

/-- Both concrete candidates reach the score cap: element B by exact match
(0.30) + substring dominance (0.5) + substring (0.25) ≥ 1. -/
theorem score_cElemB_eq_one :
    score_element cElemB cTgt none false = 1 := by
  have hraw : (1 : ℚ) ≤ score_raw cElemB cTgt none false := by
    unfold score_raw
    have h1 : exactComp cElemB cTgt = WEIGHT_EXACT_MATCH := by
      unfold exactComp
      rw [if_pos (by decide)]
    have h2 : substrDomComp cElemB cTgt = 0.5 := by
      unfold substrDomComp
      rw [if_pos ⟨by decide, by decide, by decide⟩]
    have h3 : substrComp cElemB cTgt = WEIGHT_SUBSTRING_MATCH := by
      unfold substrComp
      rw [if_pos (show MIN_SUBSTRING_LEN ≤ pyLen (targetLower cTgt) ∨
          MIN_SUBSTRING_LEN ≤ pyLen (combinedText cElemB) from
            Or.inl (by decide)),
        if_pos (by decide)]
    rw [h1, h2, h3]
    have n3 := placeholderComp_nonneg cElemB cTgt
    have n4 := keywordComp_nonneg cElemB cTgt
    have n5 := simComp_nonneg cElemB cTgt
    have n6 := roleComp_nonneg cElemB
    have n7 := ariaComp_nonneg cElemB cTgt
    have n8 := visComp_nonneg cElemB
    have n9 := posComp_nonneg cElemB
    have n10 := containerComp_nonneg cElemB none
    have n11 := histComp_nonneg false
    unfold WEIGHT_EXACT_MATCH WEIGHT_SUBSTRING_MATCH
    linarith
  unfold score_element
  exact min_eq_right hraw

/-- Element A likewise reaches the cap (its own text is also exact). -/
theorem score_cElemA_eq_one :
    score_element cElemA cTgt none false = 1 := by
  have hraw : (1 : ℚ) ≤ score_raw cElemA cTgt none false := by
    unfold score_raw
    have h1 : exactComp cElemA cTgt = WEIGHT_EXACT_MATCH := by
      unfold exactComp
      rw [if_pos (by decide)]
    have h2 : substrDomComp cElemA cTgt = 0.5 := by
      unfold substrDomComp
      rw [if_pos ⟨by decide, by decide, by decide⟩]
    have h3 : substrComp cElemA cTgt = WEIGHT_SUBSTRING_MATCH := by
      unfold substrComp
      rw [if_pos (show MIN_SUBSTRING_LEN ≤ pyLen (targetLower cTgt) ∨
          MIN_SUBSTRING_LEN ≤ pyLen (combinedText cElemA) from
            Or.inl (by decide)),
        if_pos (by decide)]
    rw [h1, h2, h3]
    have n3 := placeholderComp_nonneg cElemA cTgt
    have n4 := keywordComp_nonneg cElemA cTgt
    have n5 := simComp_nonneg cElemA cTgt
    have n6 := roleComp_nonneg cElemA
    have n7 := ariaComp_nonneg cElemA cTgt
    have n8 := visComp_nonneg cElemA
    have n9 := posComp_nonneg cElemA
    have n10 := containerComp_nonneg cElemA none
    have n11 := histComp_nonneg false
    unfold WEIGHT_EXACT_MATCH WEIGHT_SUBSTRING_MATCH
    linarith
  unfold score_element
  exact min_eq_right hraw

/-- C3 (counterexample).  Candidate A's ancestor text contains the full
target verbatim among other characters, yet ranking `[B, A]` returns *B* as
the top match: both tie at the score cap 1.0 and the stable sort keeps
document order, so the parent-containing candidate is not the top match as
the claim requires. -/
theorem C3_counterexample :
    pyIn cTgt (cElemA.parent_text.getD "") = true ∧
    (rank_elements 0.65 [cElemB, cElemA] cTgt none none).head? =
      some (1, cElemB) ∧
    cElemB ≠ cElemA := by
  have hB : score_element cElemB cTgt none (historyFlag none cElemB) = 1 :=
    score_cElemB_eq_one
  have hA : score_element cElemA cTgt none (historyFlag none cElemA) = 1 :=
    score_cElemA_eq_one
  have hscored : scoredAll [cElemB, cElemA] cTgt none none =
      [(1, cElemB), (1, cElemA)] := by
    unfold scoredAll
    simp only [List.map_cons, List.map_nil]
    rw [hB, hA]
  have hsorted_eq : sortedScores [cElemB, cElemA] cTgt none none =
      [(1, cElemB), (1, cElemA)] := by
    unfold sortedScores
    rw [hscored]
    have hsubl : List.Sublist [((1 : ℚ), cElemB), (1, cElemA)]
        (([((1 : ℚ), cElemB), (1, cElemA)]).mergeSort scoreDescBool) :=
      List.mergeSort_stable_pair scoreDesc_trans scoreDesc_total
        (by simp [scoreDescBool]) (List.Sublist.refl _)
    have hlen2 : (([((1 : ℚ), cElemB), (1, cElemA)]).mergeSort
        scoreDescBool).length = 2 := by
      rw [(List.mergeSort_perm _ _).length_eq]
      rfl
    exact (List.Sublist.eq_of_length hsubl (by rw [hlen2]; rfl)).symm
  have heff : effectiveThreshold 0.65 cTgt = LONG_TARGET_THRESHOLD := by
    unfold effectiveThreshold
    rw [if_pos (by decide)]
  have hfil : (sortedScores [cElemB, cElemA] cTgt none none).filter
      (fun x => decide (effectiveThreshold 0.65 cTgt ≤ x.1)) =
      [(1, cElemB), (1, cElemA)] := by
    rw [hsorted_eq]
    have hd : decide (effectiveThreshold 0.65 cTgt ≤ (1 : ℚ)) = true := by
      rw [heff]
      exact decide_eq_true (by norm_num [LONG_TARGET_THRESHOLD])
    simp [List.filter, hd]
  have hrank : rank_elements 0.65 [cElemB, cElemA] cTgt none none =
      [(1, cElemB), (1, cElemA)] := by
    rw [rank_eq_filter 0.65 [cElemB, cElemA] cTgt none none
      (by rw [hfil]; simp)]
    exact hfil
  refine ⟨by decide, ?_, by decide⟩
  rw [hrank]
  rfl

/-- The filter with the stronger predicate is never longer. -/
theorem filter_length_mono {α : Type} (l : List α) (p q : α → Bool)
    (h : ∀ a, q a = true → p a = true) :
    (l.filter q).length ≤ (l.filter p).length := by
  induction l with
  | nil => simp
  | cons a tl ih =>
    by_cases hq : q a = true
    · rw [List.filter_cons_of_pos hq, List.filter_cons_of_pos (h a hq)]
      simpa using ih
    · rw [List.filter_cons_of_neg (by simp [hq])]
      by_cases hp : p a = true
      · rw [List.filter_cons_of_pos hp]
        simp only [List.length_cons]
        omega
      · rw [List.filter_cons_of_neg (by simp [hp])]
        exact ih

/-- The single-best fallback returns at most one candidate. -/
theorem fallbackPick_len (sorted : List (ℚ × DOMElement)) :
    (fallbackPick sorted).length ≤ 1 := by
  unfold fallbackPick
  repeat' split
  all_goals simp

/-- With an empty threshold filter, `rank_elements` returns at most one
candidate (one of the fallbacks, or nothing). -/
theorem rank_len_le_one_of_filter_nil (threshold : ℚ)
    (elements : List DOMElement) (t : String) (rc : Option String)
    (hist : Option (String → Bool))
    (hF : (sortedScores elements t rc hist).filter
      (fun x => decide (effectiveThreshold threshold t ≤ x.1)) = []) :
    (rank_elements threshold elements t rc hist).length ≤ 1 := by
  simp only [rank_elements]
  rw [hF]
  by_cases hu : 50 < pyLen (pyStrip t)
  · have hA2 : (if (([] : List (ℚ × DOMElement)).isEmpty = true ∧
        50 < pyLen (pyStrip t)) then
          fallbackPick (sortedScores elements t rc hist) else []) =
        fallbackPick (sortedScores elements t rc hist) := if_pos ⟨rfl, hu⟩
    rw [hA2]
    split
    · exact fallbackPick_len _
    · exact fallbackPick_len _
  · have hA2 : (if (([] : List (ℚ × DOMElement)).isEmpty = true ∧
        50 < pyLen (pyStrip t)) then
          fallbackPick (sortedScores elements t rc hist) else []) =
        ([] : List (ℚ × DOMElement)) := if_neg (fun hc => hu hc.2)
    rw [hA2]
    by_cases hsm : elements.length ≤ 5
    · have hA3 : (if (([] : List (ℚ × DOMElement)).isEmpty = true ∧
          elements.length ≤ 5) then
            fallbackPick (sortedScores elements t rc hist) else []) =
          fallbackPick (sortedScores elements t rc hist) := if_pos ⟨rfl, hsm⟩
      rw [hA3]
      exact fallbackPick_len _
    · have hA3 : (if (([] : List (ℚ × DOMElement)).isEmpty = true ∧
          elements.length ≤ 5) then
            fallbackPick (sortedScores elements t rc hist) else []) =
          ([] : List (ℚ × DOMElement)) := if_neg (fun hc => hsm hc.2)
      rw [hA3]
      simp

/-- With both threshold filters empty, the two rankings coincide: the
fallback logic does not consult the configured threshold. -/
theorem rank_eq_of_both_nil (t1 t2 : ℚ) (elements : List DOMElement)
    (t : String) (rc : Option String) (hist : Option (String → Bool))
    (hF1 : (sortedScores elements t rc hist).filter
      (fun x => decide (effectiveThreshold t1 t ≤ x.1)) = [])
    (hF2 : (sortedScores elements t rc hist).filter
      (fun x => decide (effectiveThreshold t2 t ≤ x.1)) = []) :
    rank_elements t2 elements t rc hist = rank_elements t1 elements t rc hist := by
  simp only [rank_elements]
  rw [hF1, hF2]

/-- C5.  Raising the acceptance threshold never increases the size of the
accepted set, through the long-target and few-candidates fallback branches
included. -/
theorem C5_threshold_monotone (t1 t2 : ℚ) (h : t1 ≤ t2)
    (elements : List DOMElement) (target : String) (rc : Option String)
    (hist : Option (String → Bool)) :
    (rank_elements t2 elements target rc hist).length ≤
      (rank_elements t1 elements target rc hist).length := by
  have heff : effectiveThreshold t1 target ≤ effectiveThreshold t2 target := by
    unfold effectiveThreshold
    by_cases hc : LONG_TARGET_LEN < pyLen (pyStrip target)
    · rw [if_pos hc, if_pos hc]
    · rw [if_neg hc, if_neg hc]
      exact h
  have hmono : ((sortedScores elements target rc hist).filter
        (fun x => decide (effectiveThreshold t2 target ≤ x.1))).length ≤
      ((sortedScores elements target rc hist).filter
        (fun x => decide (effectiveThreshold t1 target ≤ x.1))).length := by
    refine filter_length_mono _ _ _ (fun a ha => ?_)
    rw [decide_eq_true_eq] at ha
    exact decide_eq_true (le_trans heff ha)
  by_cases h2 : (sortedScores elements target rc hist).filter
      (fun x => decide (effectiveThreshold t2 target ≤ x.1)) = []
  · by_cases h1 : (sortedScores elements target rc hist).filter
        (fun x => decide (effectiveThreshold t1 target ≤ x.1)) = []
    · rw [rank_eq_of_both_nil t1 t2 elements target rc hist h1 h2]
    · have hle2 := rank_len_le_one_of_filter_nil t2 elements target rc hist h2
      rw [rank_eq_filter t1 elements target rc hist h1]
      have hpos : 0 < ((sortedScores elements target rc hist).filter
          (fun x => decide (effectiveThreshold t1 target ≤ x.1))).length :=
        List.length_pos.mpr h1
      omega
  · have h1 : (sortedScores elements target rc hist).filter
        (fun x => decide (effectiveThreshold t1 target ≤ x.1)) ≠ [] := by
      intro hnil
      rw [hnil] at hmono
      simp only [List.length_nil, Nat.le_zero] at hmono
      exact h2 (List.length_eq_zero.mp hmono)
    rw [rank_eq_filter t1 elements target rc hist h1,
      rank_eq_filter t2 elements target rc hist h2]
    exact hmono

/-- C5 (witness).  Thresholds 0 ≤ 1 on the concrete one-candidate pool. -/
theorem C5_threshold_monotone_witness :
    (rank_elements 1 [cElemB] cTgt none none).length ≤
      (rank_elements 0 [cElemB] cTgt none none).length :=
  C5_threshold_monotone 0 1 zero_le_one [cElemB] cTgt none none

end UIAuto
